import Mathlib

/-!
Verification of the pomidoras countdown-timer daemon (Go) against its
natural-language specification.

The development shallowly embeds the daemon's timer engine, its IPC
request dispatch, the JSON wire schema, the client renderer and the
tick-loop/ticker concurrency structure as executable Lean definitions,
translated from the Go source, and proves or refutes the spec's claims
about them.

Conventions of the embedding:
* `time.Duration` is Go's `int64` count of nanoseconds; it is embedded as
  `Int` with every arithmetic result normalised by `i64`, the wrap-around
  of two's-complement 64-bit arithmetic.
* The Go `State` string type only ever holds the two constants
  `StateCountdown` ("countdown") and `StateIdle` ("idle") inside the
  engine, so the engine state is a two-constructor inductive; the wire
  schema keeps the raw `String`, as Go decodes arbitrary strings there.
* The live `*time.Ticker` / goroutine pair of a running countdown is
  abstracted in the single-timer model `Timer` to the Boolean
  `tickerActive` (there is a non-stopped ticker whose run goroutine is
  current); the finer model `Sys` below tracks every ticker and run
  goroutine individually, for the claims about stale tick loops.
-/

namespace Pomidoras

/-- One second, as Go `time.Second`: 1e9 nanoseconds (`time.Duration`). -/
def second : Int := 1000000000

/-- One minute, as Go `time.Minute`. -/
def minute : Int := 60 * second

/-- Two's-complement wrap-around of Go `int64` arithmetic. -/
def i64 (x : Int) : Int := (x + 9223372036854775808) % 18446744073709551616 - 9223372036854775808

/-- The engine values of the Go `State` string type: `StateCountdown`
("countdown") and `StateIdle` ("idle"). -/
inductive State where
  | countdown
  | idle
  deriving DecidableEq

/-- The string constant the Go code stores for each `State` value. -/
def State.str : State → String
  | .countdown => "countdown"
  | .idle => "idle"

/-- The daemon's `Timer` struct (server variant): `duration` is the
remaining time, `initialDuration` the construction-time duration,
`state` the phase; `tickerActive` abstracts the `ticker` field together
with its run goroutine (true iff a non-stopped ticker with a current run
goroutine exists).  The `mu` lock and `terminalWidth` carry no state
visible to the claims. -/
structure Timer where
  duration : Int
  initialDuration : Int
  state : State
  tickerActive : Bool
  deriving DecidableEq

/-- Go `NewTimer`: state is countdown iff the initial duration is
positive; no ticker exists yet. -/
def newTimer (initialDuration : Int) : Timer :=
  { duration := initialDuration
    initialDuration := initialDuration
    state := if initialDuration > 0 then .countdown else .idle
    tickerActive := false }

/-- Go `Timer.Start`: if `duration > 0`, set countdown state, create the
ticker and spawn `run`; otherwise set idle state. -/
def Timer.start (t : Timer) : Timer :=
  if t.duration > 0 then { t with state := .countdown, tickerActive := true }
  else { t with state := .idle }

/-- One iteration of the body of Go `Timer.run` (one received tick):
`duration -= time.Second`; if the result is `<= 0` the state becomes
idle, the ticker is stopped, the duration is clamped to exactly 0 and
the goroutine returns (the notification side effect carries no timer
state); otherwise only the decrement remains. -/
def Timer.tick (t : Timer) : Timer :=
  let d := i64 (t.duration - second)
  if d ≤ 0 then { t with duration := 0, state := .idle, tickerActive := false }
  else { t with duration := d }

/-- Go `Timer.AddSeconds`: `duration += time.Duration(seconds) * time.Second`;
if the state was idle and the new duration is positive, enter countdown
state and start a fresh ticker and run goroutine.  There is no clamping
and no transition out of countdown here. -/
def Timer.addSeconds (s : Int) (t : Timer) : Timer :=
  let t1 : Timer := { t with duration := i64 (t.duration + i64 (i64 s * second)) }
  if t1.state = .idle ∧ t1.duration > 0 then
    { t1 with state := .countdown, tickerActive := true }
  else t1

/-- Go `Timer.Reset`: `duration = initialDuration`; stop the current
ticker if any; if the restored duration is positive enter countdown
state with a fresh ticker and run goroutine, otherwise enter idle state
(with the old ticker stopped, so no loop is active). -/
def Timer.reset (t : Timer) : Timer :=
  let t1 : Timer := { t with duration := t.initialDuration }
  if t1.duration > 0 then { t1 with state := .countdown, tickerActive := true }
  else { t1 with state := .idle, tickerActive := false }

/-- The wire `TimerStatus` struct: a `State` string and a
`time.Duration` (int64 nanoseconds). -/
structure TimerStatus where
  state : String
  duration : Int
  deriving DecidableEq

/-- Go `Timer.GetStatus`: a read-locked snapshot
`TimerStatus{State: t.state, Duration: t.duration}`. -/
def Timer.getStatus (t : Timer) : TimerStatus :=
  { state := t.state.str, duration := t.duration }

end Pomidoras

namespace Pomidoras

/-- claim C1 counterexample: `AddSeconds (-1000)` on the reachable state
(Counting, 10s) — a started timer with 10s initial — yields
(Counting, -990s), not the (Idle, 0s) the claim asserts: the clamp does
not happen inside `AddSeconds`. -/
theorem c1_addSeconds_no_clamp_counterexample :
    (Timer.addSeconds (-1000) (Timer.start (newTimer (10 * second)))).state = State.countdown ∧
    (Timer.addSeconds (-1000) (Timer.start (newTimer (10 * second)))).duration = -990 * second ∧
    ¬((Timer.addSeconds (-1000) (Timer.start (newTimer (10 * second)))).state = State.idle ∧
      (Timer.addSeconds (-1000) (Timer.start (newTimer (10 * second)))).duration = 0) := by
  refine ⟨by decide, by decide, ?_⟩
  intro h
  exact absurd h.1 (by decide)

/-- claim C1 (amended): `AddSeconds` adds `delta` seconds to `remaining`
(in wrapped int64 nanosecond arithmetic) with no clamping; the phase
moves Idle→Counting exactly when the prior phase was Idle and the new
remaining is positive, and a Counting phase is never left; the clamp of
a non-positive remaining to exactly (Idle, 0) is performed by the next
tick of the running loop, not by `AddSeconds` itself. -/
theorem c1_addSeconds_adds_then_tick_clamps (t : Timer) (s : Int) :
    (Timer.addSeconds s t).duration = i64 (t.duration + i64 (i64 s * second)) ∧
    (Timer.addSeconds s t).state =
      (if t.state = State.idle ∧ i64 (t.duration + i64 (i64 s * second)) > 0
        then State.countdown else t.state) ∧
    (t.state = State.countdown → (Timer.addSeconds s t).state = State.countdown) ∧
    (i64 ((Timer.addSeconds s t).duration - second) ≤ 0 →
      (Timer.tick (Timer.addSeconds s t)).state = State.idle ∧
      (Timer.tick (Timer.addSeconds s t)).duration = 0) := by
  refine ⟨?_, ?_, ?_, ?_⟩
  · simp only [Timer.addSeconds]
    split <;> rfl
  · simp only [Timer.addSeconds]
    split <;> simp_all
  · intro h
    simp only [Timer.addSeconds]
    split <;> simp_all
  · intro h
    simp only [Timer.tick]
    split <;> simp_all

/-- claim C1 witness: the amended statement evaluated at the concrete
scenario state (Counting, 10s) with delta -1000: the add yields
(Counting, -990s) and the next tick clamps to (Idle, 0s). -/
theorem c1_addSeconds_adds_then_tick_clamps_witness :
    (Timer.tick (Timer.addSeconds (-1000) (Timer.start (newTimer (10 * second))))).state = State.idle ∧
    (Timer.tick (Timer.addSeconds (-1000) (Timer.start (newTimer (10 * second))))).duration = 0 :=
  (c1_addSeconds_adds_then_tick_clamps (Timer.start (newTimer (10 * second))) (-1000)).2.2.2
    (by decide)

/-- claim C6: `Reset` sets `remaining` to the immutable initial
duration, enters Counting with an active tick loop exactly when
`initial > 0` and Idle otherwise, always succeeds (it is a total
function), and on a daemon with `initial = 0` it yields (Idle, 0)
whatever the current remaining was. -/
theorem c6_reset_restores_initial (t : Timer) :
    (Timer.reset t).duration = t.initialDuration ∧
    (Timer.reset t).initialDuration = t.initialDuration ∧
    ((Timer.reset t).state = State.countdown ↔ 0 < t.initialDuration) ∧
    ((Timer.reset t).tickerActive = true ↔ 0 < t.initialDuration) ∧
    (t.initialDuration = 0 →
      (Timer.reset t).state = State.idle ∧ (Timer.reset t).duration = 0) := by
  simp only [Timer.reset]
  split
  · rename_i h
    simp only [gt_iff_lt] at h
    refine ⟨rfl, rfl, by simpa using h, by simpa using h, ?_⟩
    intro h0
    omega
  · rename_i h
    simp only [gt_iff_lt, not_lt] at h
    refine ⟨rfl, rfl, by simp; omega, by simp; omega, ?_⟩
    intro h0
    exact ⟨rfl, h0⟩

/-- claim C6 witness: `Reset` on a timer with initial duration 0 and
current remaining 55s yields (Idle, 0). -/
theorem c6_reset_restores_initial_witness :
    (Timer.reset ⟨55 * second, 0, State.countdown, true⟩).state = State.idle ∧
    (Timer.reset ⟨55 * second, 0, State.countdown, true⟩).duration = 0 :=
  (c6_reset_restores_initial ⟨55 * second, 0, State.countdown, true⟩).2.2.2.2 rfl

/-- claim C7: `Reset` is idempotent — resetting twice yields the same
timer state (phase, remaining, initial, loop activity) as resetting
once. -/
theorem c7_reset_idempotent (t : Timer) :
    Timer.reset (Timer.reset t) = Timer.reset t := by
  simp only [Timer.reset]
  split <;> rfl

end Pomidoras

namespace Pomidoras

/-- The wire `Request` struct: a `RequestType` string (`"status"`,
`"add_seconds"`, `"reset"`) and a string payload. -/
structure Request where
  type : String
  payload : String
  deriving DecidableEq

/-- The wire `Response` struct: success flag, message, and a
`TimerStatus`; failure responses leave `status` as Go's zero value
`TimerStatus{State: "", Duration: 0}`. -/
structure Response where
  success : Bool
  message : String
  status : TimerStatus
  deriving DecidableEq

/-- Go's zero value of `TimerStatus`, as left in a `Response` literal
that does not mention the `Status` field. -/
def zeroStatus : TimerStatus := { state := "", duration := 0 }

/-- Digit run of `strconv.Atoi`: base-10 digits accumulated left to
right; any non-digit character is an error. -/
def parseDigitsAux : List Char → Nat → Option Nat
  | [], acc => some acc
  | c :: cs, acc =>
      if c.isDigit then parseDigitsAux cs (acc * 10 + (c.toNat - 48)) else none

/-- Go `strconv.Atoi` (64-bit): optional leading `+`/`-` sign, at least
one base-10 digit, no other characters, and the value must fit in
`int64`; anything else is an error (`none`). -/
def atoi (s : String) : Option Int :=
  let cs := s.toList
  let signed : Int × List Char :=
    match cs with
    | c :: tl => if c = '-' then (-1, tl) else if c = '+' then (1, tl) else (1, cs)
    | [] => (1, cs)
  match signed.2 with
  | [] => none
  | rest =>
    match parseDigitsAux rest 0 with
    | none => none
    | some n =>
        let v : Int := signed.1 * n
        if -9223372036854775808 ≤ v ∧ v < 9223372036854775808 then some v else none

/-- Go `handleConnection`, as the pure dispatch it performs on one
decoded request: `none` models a request body that failed to decode
into the `Request` schema.  Returns the response written back and the
timer after the handler ran.  The connection bookkeeping (`defer
conn.Close()`, encoder errors) carries no timer state. -/
def handleConnection (req : Option Request) (timer : Timer) : Response × Timer :=
  match req with
  | none => ({ success := false, message := "Invalid request format.", status := zeroStatus }, timer)
  | some r =>
    if r.type = "status" then
      ({ success := true, message := "", status := timer.getStatus }, timer)
    else if r.type = "add_seconds" then
      match atoi r.payload with
      | none =>
          ({ success := false, message := "Invalid seconds value.", status := zeroStatus }, timer)
      | some s =>
          ({ success := true, message := "Added " ++ toString s ++ " seconds.",
             status := zeroStatus }, Timer.addSeconds s timer)
    else if r.type = "reset" then
      ({ success := true, message := "Timer reset.", status := zeroStatus }, Timer.reset timer)
    else
      ({ success := false, message := "Unknown request type.", status := zeroStatus }, timer)

/-- What the server `main` does before entering the accept loop, as a
function of its optional first argument: `none` is no argument, `some
(some d)` an argument `time.ParseDuration` parses to `d`, `some none`
an argument `time.ParseDuration` rejects. -/
inductive InitAction where
  | runWith (initialDuration : Int)
  | exitWith (code : Nat)
  deriving DecidableEq

/-- Go server `main`, argument handling (the second program of the
repository, the socket daemon): no argument keeps `initialDuration =
0`; a parsable argument uses the parsed duration; an unparsable one
prints the parse error and "Invalid duration format. Using 0s." and
continues with 0 — it does not exit. -/
def serverInit (arg : Option (Option Int)) : InitAction :=
  match arg with
  | none => .runWith 0
  | some (some d) => .runWith d
  | some none => .runWith 0

/-- Go standalone `main` (the first, signal-driven program of the
repository), argument handling: `fmt.Sscan` failure prints the error
and calls `os.Exit(1)`. -/
def standaloneInit (arg : Option (Option Int)) : InitAction :=
  match arg with
  | none => .runWith 0
  | some (some d) => .runWith d
  | some none => .exitWith 1

end Pomidoras

namespace Pomidoras

/-- claim C10: handling a `Status` request never mutates the timer —
the handler returns the timer it was given, completely unchanged
(phase, remaining, initial and tick loop alike), and the response
carries the read-only snapshot `(phase, remaining)`. -/
theorem c10_status_is_readonly (t : Timer) (p : String) :
    (handleConnection (some ⟨"status", p⟩) t).2 = t ∧
    (handleConnection (some ⟨"status", p⟩) t).1 =
      { success := true, message := "", status := ⟨t.state.str, t.duration⟩ } := by
  constructor
  · rfl
  · rfl

/-- claim C4: each per-request recoverable error — undecodable request,
`add_seconds` payload that is not an integer, unknown request kind —
yields a failure response with a non-empty explanatory message and
leaves the timer state completely unchanged. -/
theorem c4_recoverable_errors_no_mutation (t : Timer) (r : Request) :
    ((handleConnection none t).1.success = false ∧
      (handleConnection none t).1.message ≠ "" ∧
      (handleConnection none t).2 = t) ∧
    (r.type = "add_seconds" → atoi r.payload = none →
      (handleConnection (some r) t).1.success = false ∧
      (handleConnection (some r) t).1.message ≠ "" ∧
      (handleConnection (some r) t).2 = t) ∧
    (r.type ≠ "status" → r.type ≠ "add_seconds" → r.type ≠ "reset" →
      (handleConnection (some r) t).1.success = false ∧
      (handleConnection (some r) t).1.message ≠ "" ∧
      (handleConnection (some r) t).2 = t) := by
  refine ⟨⟨rfl, by simp [handleConnection], rfl⟩, ?_, ?_⟩
  · intro hty hatoi
    simp [handleConnection, hty, hatoi]
  · intro h1 h2 h3
    simp [handleConnection, h1, h2, h3]

/-- claim C4 witness: the three recoverable errors evaluated concretely
on a timer in state (Counting, 10s): an undecodable request, an
`add_seconds` request with payload "abc", and a request of kind
"frobnicate" all fail without touching the timer. -/
theorem c4_recoverable_errors_no_mutation_witness :
    ((handleConnection none ⟨10 * second, 10 * second, State.countdown, true⟩).2 =
      ⟨10 * second, 10 * second, State.countdown, true⟩) ∧
    ((handleConnection (some ⟨"add_seconds", "abc"⟩)
        ⟨10 * second, 10 * second, State.countdown, true⟩).1.success = false ∧
      (handleConnection (some ⟨"add_seconds", "abc"⟩)
        ⟨10 * second, 10 * second, State.countdown, true⟩).2 =
        ⟨10 * second, 10 * second, State.countdown, true⟩) ∧
    ((handleConnection (some ⟨"frobnicate", ""⟩)
        ⟨10 * second, 10 * second, State.countdown, true⟩).1.success = false ∧
      (handleConnection (some ⟨"frobnicate", ""⟩)
        ⟨10 * second, 10 * second, State.countdown, true⟩).2 =
        ⟨10 * second, 10 * second, State.countdown, true⟩) := by
  have h := c4_recoverable_errors_no_mutation
    ⟨10 * second, 10 * second, State.countdown, true⟩ ⟨"add_seconds", "abc"⟩
  have h2 := c4_recoverable_errors_no_mutation
    ⟨10 * second, 10 * second, State.countdown, true⟩ ⟨"frobnicate", ""⟩
  have ha := h.2.1 rfl (by decide)
  have hb := h2.2.2 (by decide) (by decide) (by decide)
  exact ⟨h.1.2.2, ⟨ha.1, ha.2.2⟩, ⟨hb.1, hb.2.2⟩⟩

/-- claim C5 counterexample: an argument that `time.ParseDuration`
cannot parse does not make the server exit — the server `main` prints
the error and continues running with initial duration 0. -/
theorem c5_unparsable_arg_counterexample :
    serverInit (some none) = InitAction.runWith 0 ∧
    serverInit (some none) ≠ InitAction.exitWith 1 := by
  constructor
  · rfl
  · decide

/-- claim C5 (amended): on an unparsable startup argument the socket
daemon (`main` of the server program) reports the parse error and
continues with initial duration 0 (hence `Idle`) — it does not exit;
only the standalone, signal-driven variant of the program exits with
status 1 on an unparsable raw-count argument.  A parsable argument is
used as given and an absent argument defaults to 0 in both. -/
theorem c5_unparsable_arg_defaults_to_zero (d : Int) :
    serverInit none = InitAction.runWith 0 ∧
    serverInit (some (some d)) = InitAction.runWith d ∧
    serverInit (some none) = InitAction.runWith 0 ∧
    standaloneInit (some none) = InitAction.exitWith 1 ∧
    standaloneInit (some (some d)) = InitAction.runWith d ∧
    standaloneInit none = InitAction.runWith 0 :=
  ⟨rfl, rfl, rfl, rfl, rfl, rfl⟩

end Pomidoras

namespace Pomidoras

/-- One serialized mutation of the shared timer state: an
`AddSeconds(s)` call, a `Reset` call, or one wake-up of the current run
goroutine (a tick).  Every mutation of the Go timer happens under the
exclusive lock, so an execution is a sequence of these. -/
inductive Op where
  | add (s : Int)
  | reset
  | tick
  deriving DecidableEq

/-- Apply one serialized operation.  A tick advances the state only
when a tick loop is active (an idle timer has no run goroutine
receiving ticks). -/
def applyOp (t : Timer) : Op → Timer
  | .add s => Timer.addSeconds s t
  | .reset => Timer.reset t
  | .tick => if t.tickerActive then Timer.tick t else t

/-- Run a sequence of serialized operations left to right. -/
def runOps (t : Timer) : List Op → Timer
  | [] => t
  | op :: ops => runOps (applyOp t op) ops

/-- Side condition for the amended claim C2: an `AddSeconds` delta is
nonnegative and does not overflow `int64` (`Reset` and ticks have no
side condition). -/
def okOp (t : Timer) : Op → Prop
  | .add s => 0 ≤ s ∧ t.duration + s * second < 9223372036854775808
  | .reset => True
  | .tick => True

/-- `okOp` holds of every operation along the trace, each judged at the
state it is applied to. -/
def okTrace : Timer → List Op → Prop
  | _, [] => True
  | t, op :: ops => okOp t op ∧ okTrace (applyOp t op) ops

/-- The state invariant of the spec's data model: `remaining` is a
nonnegative in-range duration, `initial` likewise, the phase is
Counting exactly when a tick loop is active, and a Counting phase has
positive remaining. -/
def Inv (t : Timer) : Prop :=
  0 ≤ t.duration ∧ t.duration < 9223372036854775808 ∧
  0 ≤ t.initialDuration ∧ t.initialDuration < 9223372036854775808 ∧
  (t.state = State.countdown ↔ t.tickerActive = true) ∧
  (t.state = State.countdown → 0 < t.duration)

/-- `i64` is the identity on values already in the `int64` range. -/
theorem i64_eq_self (x : Int) (h1 : -9223372036854775808 ≤ x)
    (h2 : x < 9223372036854775808) : i64 x = x := by
  simp only [i64]
  omega

/-- Each serialized operation preserves the state invariant, given its
side condition. -/
theorem inv_applyOp (t : Timer) (op : Op) (hI : Inv t) (hok : okOp t op) :
    Inv (applyOp t op) := by
  obtain ⟨d, init, st, act⟩ := t
  obtain ⟨h1, h2, h3, h4, h5, h6⟩ := hI
  simp only at h1 h2 h3 h4 h5 h6
  cases op with
  | add s =>
      obtain ⟨hs, hb⟩ := hok
      simp only [second] at hb
      have e1 : i64 s = s := i64_eq_self s (by omega) (by omega)
      have e2 : i64 (s * second) = s * second :=
        i64_eq_self _ (by simp only [second]; omega) (by simp only [second]; omega)
      have e3 : i64 (d + s * second) = d + s * second :=
        i64_eq_self _ (by simp only [second]; omega) (by simp only [second]; omega)
      simp only [applyOp, Timer.addSeconds, e1, e2, e3, Inv]
      split
      · rename_i hcond
        simp only [second] at hcond ⊢
        refine ⟨by omega, by omega, h3, h4, by simp, by simpa using hcond.2⟩
      · rename_i hcond
        simp only [second] at hcond ⊢
        refine ⟨by omega, by omega, h3, h4, h5, ?_⟩
        intro hc
        have := h6 hc
        simp only [second] at this
        omega
  | reset =>
      show Inv (Timer.reset ⟨d, init, st, act⟩)
      by_cases hinit : init > 0
      · have : Timer.reset ⟨d, init, st, act⟩ = ⟨init, init, State.countdown, true⟩ := by
          simp only [Timer.reset]
          rw [if_pos hinit]
        rw [this]
        exact ⟨le_of_lt hinit, h4, h3, h4, by simp, fun _ => hinit⟩
      · have : Timer.reset ⟨d, init, st, act⟩ = ⟨init, init, State.idle, false⟩ := by
          simp only [Timer.reset]
          rw [if_neg hinit]
        rw [this]
        refine ⟨h3, h4, h3, h4, by simp, fun hc => absurd hc (by simp)⟩
  | tick =>
      show Inv (applyOp ⟨d, init, st, act⟩ Op.tick)
      cases act with
      | false => exact ⟨h1, h2, h3, h4, h5, h6⟩
      | true =>
          have hst : st = State.countdown := h5.mpr rfl
          have hd : 0 < d := h6 hst
          have hsec : (0:Int) < second := by decide
          have e : i64 (d - second) = d - second :=
            i64_eq_self _ (by simp only [second]; omega) (by simp only [second]; omega)
          show Inv (Timer.tick ⟨d, init, st, true⟩)
          by_cases hds : i64 (d - second) ≤ 0
          · have : Timer.tick ⟨d, init, st, true⟩ = ⟨0, init, State.idle, false⟩ := by
              simp only [Timer.tick]
              rw [if_pos hds]
            rw [this]
            refine ⟨le_refl 0, ?_, h3, h4, by simp, fun hc => absurd hc (by simp)⟩
            show (0:Int) < 9223372036854775808
            decide
          · have : Timer.tick ⟨d, init, st, true⟩ = ⟨d - second, init, st, true⟩ := by
              simp only [Timer.tick]
              rw [if_neg hds, e]
            rw [this]
            rw [e] at hds
            refine ⟨?_, ?_, h3, h4, by simpa using hst, ?_⟩
            · show (0:Int) ≤ d - second
              omega
            · show d - second < 9223372036854775808
              omega
            · intro h7
              show (0:Int) < d - second
              omega

/-- The invariant is preserved along every valid trace. -/
theorem inv_runOps (t : Timer) (ops : List Op) (hI : Inv t) (hok : okTrace t ops) :
    Inv (runOps t ops) := by
  induction ops generalizing t with
  | nil => exact hI
  | cons op ops ih =>
      obtain ⟨hop, hrest⟩ := hok
      exact ih (applyOp t op) (inv_applyOp t op hI hop) hrest

/-- A started daemon whose initial duration is nonnegative and in range
satisfies the invariant. -/
theorem inv_start (d : Int) (h1 : 0 ≤ d) (h2 : d < 9223372036854775808) :
    Inv (Timer.start (newTimer d)) := by
  simp only [newTimer, Timer.start, Inv]
  split
  · rename_i h
    simp only [gt_iff_lt] at h
    exact ⟨h1, h2, h1, h2, by simp, fun _ => h⟩
  · rename_i h
    simp only [gt_iff_lt, not_lt] at h
    refine ⟨h1, h2, h1, h2, ?_, ?_⟩
    · constructor
      · intro hc
        simp only [if_neg (by omega : ¬ d > 0)] at hc
        cases hc
      · intro hc
        cases hc
    · intro hc
      simp only [if_neg (by omega : ¬ d > 0)] at hc
      cases hc

/-- claim C2 counterexample: the reachable trace (start with 10s, then
`AddSeconds(-1000)`) makes the observable remaining negative while the
phase is still Counting with an active tick loop — refuting both
"remaining is never observed negative" and "Counting implies
remaining > 0". -/
theorem c2_negative_remaining_counterexample :
    (runOps (Timer.start (newTimer (10 * second))) [Op.add (-1000)]).duration =
      -990 * second ∧
    (runOps (Timer.start (newTimer (10 * second))) [Op.add (-1000)]).state =
      State.countdown ∧
    (runOps (Timer.start (newTimer (10 * second))) [Op.add (-1000)]).tickerActive = true ∧
    ¬(0 ≤ (runOps (Timer.start (newTimer (10 * second))) [Op.add (-1000)]).duration) := by
  refine ⟨by decide, by decide, by decide, by decide⟩

/-- claim C2 (amended): along every sequence of `AddSeconds`, `Reset`
and tick operations from a started daemon with nonnegative in-range
initial duration, in which every `AddSeconds` delta is nonnegative and
does not overflow int64, the remaining duration is never negative, the
phase is Counting exactly when remaining is positive and a tick loop is
active, and the phase is Idle exactly when remaining is zero or no tick
loop is active.  (A negative delta breaks the invariant, as the
counterexample shows, until the next tick restores it.) -/
theorem c2_invariant_under_nonneg_deltas :
    (∀ (d : Int) (ops : List Op), 0 ≤ d → d < 9223372036854775808 →
      okTrace (Timer.start (newTimer d)) ops →
      Inv (runOps (Timer.start (newTimer d)) ops)) ∧
    (∀ t : Timer, Inv t →
      0 ≤ t.duration ∧
      (t.state = State.countdown ↔ 0 < t.duration ∧ t.tickerActive = true) ∧
      (t.state = State.idle ↔ t.duration = 0 ∨ t.tickerActive = false)) := by
  constructor
  · intro d ops h1 h2 hok
    exact inv_runOps _ ops (inv_start d h1 h2) hok
  · intro t hI
    obtain ⟨h1, h2, h3, h4, h5, h6⟩ := hI
    refine ⟨h1, ⟨fun hc => ⟨h6 hc, h5.mp hc⟩, fun hc => h5.mpr hc.2⟩, ?_, ?_⟩
    · intro hidle
      cases ht : t.tickerActive with
      | false => exact Or.inr rfl
      | true =>
          have := h5.mpr ht
          rw [hidle] at this
          cases this
    · intro hor
      cases hst : t.state with
      | idle => rfl
      | countdown =>
          cases hor with
          | inl hz => have := h6 hst; omega
          | inr hf => have := h5.mp hst; rw [hf] at this; cases this

/-- claim C2 witness: the amended statement evaluated on the concrete
trace (start with 2s; AddSeconds(3); tick; Reset), whose side
conditions hold. -/
theorem c2_invariant_under_nonneg_deltas_witness :
    Inv (runOps (Timer.start (newTimer (2 * second))) [Op.add 3, Op.tick, Op.reset]) :=
  c2_invariant_under_nonneg_deltas.1 (2 * second) [Op.add 3, Op.tick, Op.reset]
    (by decide) (by decide) ⟨⟨by decide, by decide⟩, trivial, trivial, trivial⟩

end Pomidoras

namespace Pomidoras

/-- A JSON value, the self-describing encoding `encoding/json` streams
over the socket (only the shapes the two schemas use: strings, numbers
that are int64 values, booleans, objects). -/
inductive Jval where
  | jstr (s : String)
  | jnum (n : Int)
  | jbool (b : Bool)
  | jobj (fields : List (String × Jval))

/-- First binding of a key in a JSON object, as `encoding/json` sees a
decoded object's fields. -/
def jlookup (fields : List (String × Jval)) (k : String) : Option Jval :=
  match fields with
  | [] => none
  | (k2, v) :: rest => if k2 = k then some v else jlookup rest k

/-- Decode a string-typed struct field, as `encoding/json` does: an
absent key leaves the zero value `""`; a present key must hold a
string. -/
def getStr (fields : List (String × Jval)) (k : String) : Option String :=
  match jlookup fields k with
  | none => some ""
  | some (.jstr s) => some s
  | some _ => none

/-- Decode an int64-typed struct field (`time.Duration`): an absent key
leaves the zero value `0`; a present key must hold a number. -/
def getNum (fields : List (String × Jval)) (k : String) : Option Int :=
  match jlookup fields k with
  | none => some 0
  | some (.jnum n) => some n
  | some _ => none

/-- Decode a bool-typed struct field: an absent key leaves the zero
value `false`; a present key must hold a boolean. -/
def getBool (fields : List (String × Jval)) (k : String) : Option Bool :=
  match jlookup fields k with
  | none => some false
  | some (.jbool b) => some b
  | some _ => none

/-- `json.Marshal` of the `TimerStatus` struct: both fields are always
emitted, in declaration order. -/
def encodeStatus (ts : TimerStatus) : Jval :=
  .jobj [("state", .jstr ts.state), ("duration", .jnum ts.duration)]

/-- `json.Unmarshal` into a `TimerStatus`: must be an object; fields by
key with Go zero-value defaulting. -/
def decodeStatus : Jval → Option TimerStatus
  | .jobj fs => do
      let st ← getStr fs "state"
      let d ← getNum fs "duration"
      some ⟨st, d⟩
  | _ => none

/-- Decode a struct-typed field (`Response.Status`): an absent key
leaves the zero value `TimerStatus{"", 0}`; a present key must decode
as a `TimerStatus`. -/
def getStatusField (fields : List (String × Jval)) (k : String) : Option TimerStatus :=
  match jlookup fields k with
  | none => some ⟨"", 0⟩
  | some v => decodeStatus v

/-- `json.Marshal` of a `Request`: `type` always, `payload` omitted
when empty (its `omitempty` tag). -/
def encodeRequest (r : Request) : Jval :=
  .jobj ([("type", .jstr r.type)] ++
    (if r.payload = "" then [] else [("payload", .jstr r.payload)]))

/-- `json.Unmarshal` into a `Request`. -/
def decodeRequest : Jval → Option Request
  | .jobj fs => do
      let ty ← getStr fs "type"
      let pl ← getStr fs "payload"
      some ⟨ty, pl⟩
  | _ => none

/-- `json.Marshal` of a `Response`: `success` always (no `omitempty`),
`message` omitted when empty, `status` always — its `omitempty` tag is
inert because Go never treats a struct value as empty. -/
def encodeResponse (r : Response) : Jval :=
  .jobj ([("success", .jbool r.success)] ++
    (if r.message = "" then [] else [("message", .jstr r.message)]) ++
    [("status", encodeStatus r.status)])

/-- `json.Unmarshal` into a `Response`. -/
def decodeResponse : Jval → Option Response
  | .jobj fs => do
      let su ← getBool fs "success"
      let m ← getStr fs "message"
      let st ← getStatusField fs "status"
      some ⟨su, m, st⟩
  | _ => none

end Pomidoras

namespace Pomidoras

/-- claim C8: encoding any `Request` and any `Response` of the wire
schema and decoding the result yields the original value — the
round-trip identity holds in both directions of the protocol,
`omitempty` defaulting included. -/
theorem c8_wire_roundtrip :
    (∀ r : Request, decodeRequest (encodeRequest r) = some r) ∧
    (∀ r : Response, decodeResponse (encodeResponse r) = some r) := by
  constructor
  · intro r
    obtain ⟨ty, pl⟩ := r
    by_cases hp : pl = ""
    · subst hp
      simp [encodeRequest, decodeRequest, getStr, jlookup]
    · simp [encodeRequest, decodeRequest, getStr, jlookup, hp]
  · intro r
    obtain ⟨su, m, st⟩ := r
    obtain ⟨sst, sd⟩ := st
    by_cases hm : m = ""
    · subst hm
      simp [encodeResponse, decodeResponse, encodeStatus, decodeStatus, getStatusField,
        getBool, getStr, getNum, jlookup]
    · simp [encodeResponse, decodeResponse, encodeStatus, decodeStatus, getStatusField,
        getBool, getStr, getNum, jlookup, hm]

end Pomidoras

namespace Pomidoras

/-- Decimal digits of a natural number, most significant first, with
explicit fuel (any fuel above the digit count is enough). -/
def natDigitsGo (fuel n : Nat) : List Char :=
  match fuel with
  | 0 => []
  | fuel + 1 =>
      if n < 10 then [Nat.digitChar n]
      else natDigitsGo fuel (n / 10) ++ [Nat.digitChar (n % 10)]

/-- Decimal rendering of a natural number, as `fmt` renders the digit
part of `%d`. -/
def natToStr (n : Nat) : String := String.mk (natDigitsGo (n + 1) n)

/-- Left-pad with zeros to width `w`, as `fmt`'s `0` flag. -/
def zeroPad (w : Nat) (s : String) : String :=
  String.mk (List.replicate (w - s.length) '0') ++ s

/-- Go `fmt.Sprintf("%02d", n)`: minimum width 2, zero padded, with the
sign counted inside the width. -/
def fmt02 (n : Int) : String :=
  if n < 0 then "-" ++ zeroPad 1 (natToStr n.natAbs)
  else zeroPad 2 (natToStr n.natAbs)

/-- The client's `int(resp.Status.Duration.Minutes())`: the whole
number of minutes, truncated toward zero like Go conversion of the
float to int (the float64 detour of `Duration.Minutes` is exact at
every magnitude the daemon reaches; it could differ from the true
truncation only within 2⁻²⁶ minute of a whole minute at magnitudes of
hundreds of years). -/
def durMinutes (d : Int) : Int := d.tdiv minute

/-- The client's `int(resp.Status.Duration.Seconds())`, truncated
toward zero (same float caveat as `durMinutes`). -/
def durSeconds (d : Int) : Int := d.tdiv second

/-- The client's rendering of a successful `Status` payload:
`%02d:%02d` of minutes and seconds-mod-60 when counting (`%` is Go's
truncated remainder), the idle indicator otherwise. -/
def renderStatus (st : TimerStatus) : String :=
  if st.state = "countdown" then
    fmt02 (durMinutes st.duration) ++ ":" ++ fmt02 ((durSeconds st.duration).tmod 60)
  else "Idle"

/-- The output line of the client `main` after it has decoded a
response: the error line for a failure response (before exiting 1), the
status rendering for a `Status` request, the server's message
otherwise. -/
def clientRender (req : Request) (resp : Response) : String :=
  if resp.success = false then "Server error: " ++ resp.message
  else if req.type = "status" then renderStatus resp.status
  else resp.message

end Pomidoras

namespace Pomidoras

/-- claim C9: on a successful `Status` response the client renders
`remaining` as zero-padded minutes:seconds when the phase is Counting
and the idle indicator otherwise; on successful responses to other
request kinds it prints the response's message.  The seconds field is
always in [0, 60) for a nonnegative remaining, and both fields render
as exactly two digits whenever their value is in [0, 99]. -/
theorem c9_client_render (req : Request) (resp : Response) :
    (resp.success = true → resp.status.state = "countdown" →
      clientRender ⟨"status", ""⟩ resp =
        fmt02 (durMinutes resp.status.duration) ++ ":" ++
        fmt02 ((durSeconds resp.status.duration).tmod 60)) ∧
    (resp.success = true → resp.status.state ≠ "countdown" →
      clientRender ⟨"status", ""⟩ resp = "Idle") ∧
    (resp.success = true → req.type ≠ "status" →
      clientRender req resp = resp.message) ∧
    (∀ d : Int, 0 ≤ d →
      0 ≤ (durSeconds d).tmod 60 ∧ (durSeconds d).tmod 60 < 60) ∧
    (∀ n : Int, 0 ≤ n → n ≤ 99 → (fmt02 n).length = 2) := by
  refine ⟨?_, ?_, ?_, ?_, ?_⟩
  · intro h1 h2
    simp [clientRender, renderStatus, h1, h2]
  · intro h1 h2
    simp [clientRender, renderStatus, h1, h2]
  · intro h1 h2
    simp [clientRender, h1, h2]
  · intro d hd
    have hq : 0 ≤ durSeconds d := Int.tdiv_nonneg hd (by decide)
    constructor
    · exact Int.tmod_nonneg 60 hq
    · exact Int.tmod_lt_of_pos _ (by decide)
  · intro n h1 h2
    obtain ⟨m, rfl⟩ := Int.eq_ofNat_of_zero_le h1
    have hm : m ≤ 99 := by exact_mod_cast h2
    exact (by decide : ∀ k : Nat, k ≤ 99 → (fmt02 (Int.ofNat k)).length = 2) m hm

/-- claim C9 witness: concrete renderings — a counting 90s status shows
"01:30", an idle status shows "Idle", and a successful reset response
prints the server's message. -/
theorem c9_client_render_witness :
    clientRender ⟨"status", ""⟩ ⟨true, "", ⟨"countdown", 90 * second⟩⟩ = "01:30" ∧
    clientRender ⟨"status", ""⟩ ⟨true, "", ⟨"idle", 0⟩⟩ = "Idle" ∧
    clientRender ⟨"reset", ""⟩ ⟨true, "Timer reset.", ⟨"", 0⟩⟩ = "Timer reset." := by
  refine ⟨?_, ?_, ?_⟩
  · have h := (c9_client_render ⟨"status", ""⟩ ⟨true, "", ⟨"countdown", 90 * second⟩⟩).1
      rfl rfl
    rw [h]
    decide
  · exact (c9_client_render ⟨"status", ""⟩ ⟨true, "", ⟨"idle", 0⟩⟩).2.1 rfl (by decide)
  · exact (c9_client_render ⟨"reset", ""⟩ ⟨true, "Timer reset.", ⟨"", 0⟩⟩).2.2.1
      rfl (by decide)

end Pomidoras

namespace Pomidoras

/-- Fine-grained model of the daemon's tickers and run goroutines, for
the stale-tick-loop claim.  Tickers are numbered in creation order:
`cur` is the ticker the `t.ticker` field currently holds (meaningful
when `hasTicker`), `stopped i` records whether `Stop` was called on
ticker `i`, and `pending i` whether a tick is sitting in ticker `i`'s
channel.  Per Go's `time` package, a ticker's channel has capacity one,
a tick arriving while the buffer is full is dropped, and `Stop`
prevents future sends but neither closes nor drains the channel.
`loops` lists the live run goroutines by the ticker whose channel each
ranges over — `for range t.ticker.C` evaluates `t.ticker.C` once at
loop entry, while the `t.ticker.Stop()` in the loop body reads the
field again at call time. -/
structure Sys where
  duration : Int
  initialDuration : Int
  state : State
  cur : Nat
  hasTicker : Bool
  stopped : List Bool
  pending : List Bool
  loops : List Nat
  deriving DecidableEq

/-- `NewTimer` followed by `Timer.Start`: a positive duration creates
ticker 0 and spawns its run goroutine; otherwise no ticker exists. -/
def sysStart (d : Int) : Sys :=
  if d > 0 then
    { duration := d, initialDuration := d, state := .countdown, cur := 0,
      hasTicker := true, stopped := [false], pending := [false], loops := [0] }
  else
    { duration := d, initialDuration := d, state := .idle, cur := 0,
      hasTicker := false, stopped := [], pending := [], loops := [] }

/-- Ticker `i`'s period elapses: if the ticker exists, is not stopped
and its one-slot channel is empty, a tick is buffered; otherwise the
tick is dropped. -/
def fireTick (i : Nat) (s : Sys) : Sys :=
  if i < s.stopped.length ∧ s.stopped.getD i true = false ∧ s.pending.getD i false = false then
    { s with pending := s.pending.set i true }
  else s

/-- A live run goroutine ranging over ticker `i`'s channel receives a
buffered tick and executes the loop body of `Timer.run` under the lock:
`duration -= time.Second`; on reaching `<= 0` it idles the state, calls
`t.ticker.Stop()` — which stops the ticker *currently in the field*,
`cur`, not necessarily its own — clamps to zero and returns. -/
def recvTick (i : Nat) (s : Sys) : Sys :=
  if i ∈ s.loops ∧ s.pending.getD i false = true then
    let s1 := { s with pending := s.pending.set i false }
    let d := i64 (s1.duration - second)
    if d ≤ 0 then
      { s1 with
        duration := 0
        state := State.idle
        stopped := s1.stopped.set s1.cur true
        loops := s1.loops.erase i }
    else { s1 with duration := d }
  else s

/-- Go `Timer.Reset` in the fine-grained model: restore `duration`,
stop the ticker currently in the field (if any), and when the restored
duration is positive install a fresh ticker and spawn a new run
goroutine on it; the superseded goroutine (if any) stays alive, still
ranging over its old channel. -/
def sysReset (s : Sys) : Sys :=
  let s1 := { s with duration := s.initialDuration }
  let s2 := if s1.hasTicker then { s1 with stopped := s1.stopped.set s1.cur true } else s1
  if s2.duration > 0 then
    { s2 with
      state := State.countdown
      cur := s2.stopped.length
      hasTicker := true
      stopped := s2.stopped ++ [false]
      pending := s2.pending ++ [false]
      loops := s2.loops ++ [s2.stopped.length] }
  else { s2 with state := State.idle }

end Pomidoras

namespace Pomidoras

/-- claim C3: the code does stop the superseded ticker before starting
the new one, but a tick already buffered in the superseded ticker's
channel is still consumed by the stale run goroutine afterwards.
Schedule: start with 10s; ticker 0 fires (tick buffered); `Reset` stops
ticker 0, restores 10s and starts loop 1; the stale loop 0 then
receives the buffered tick and decrements the fresh countdown to 9s —
a decrement by a superseded loop, which the claim says never happens.
Worse, with initial duration 1s the same schedule drives the stale
decrement to zero, so the stale loop idles the timer and its
`t.ticker.Stop()` stops the *new* ticker 1, killing the countdown
`Reset` just started. -/
theorem c3_stale_loop_decrements :
    ((sysReset (fireTick 0 (sysStart (10 * second)))).stopped.getD 0 true = true ∧
      (sysReset (fireTick 0 (sysStart (10 * second)))).cur = 1 ∧
      (sysReset (fireTick 0 (sysStart (10 * second)))).duration = 10 * second ∧
      0 ∈ (sysReset (fireTick 0 (sysStart (10 * second)))).loops ∧
      (recvTick 0 (sysReset (fireTick 0 (sysStart (10 * second))))).duration = 9 * second) ∧
    ((recvTick 0 (sysReset (fireTick 0 (sysStart (1 * second))))).state = State.idle ∧
      (recvTick 0 (sysReset (fireTick 0 (sysStart (1 * second))))).duration = 0 ∧
      (recvTick 0 (sysReset (fireTick 0 (sysStart (1 * second))))).stopped.getD 1 true = true) := by
  refine ⟨⟨by decide, by decide, by decide, by decide, by decide⟩,
    by decide, by decide, by decide⟩

end Pomidoras
